import Mathlib

/-!
Verification development for the tactical coordination server
(`server/app/server.py`).  The server's dictionaries are modelled as
association lists that mirror Python's insertion-ordered dicts, its sets as
duplicate-free lists, floating-point quantities as real numbers (coordinates)
or integers (timestamps), and every mutation handler as a pure function from
session state to session state together with the list of broadcast deltas it
emits.  Generated identifiers (uuid4) and wall-clock times are threaded in as
explicit parameters.
-/

set_option maxHeartbeats 1000000

namespace ARSFT

/-- Model of a Python `dict` keyed by strings: an insertion-ordered
association list.  Assignment to an existing key replaces the value in place;
assignment to a fresh key appends at the end, exactly as CPython dicts do. -/
abbrev SMap (α : Type) := List (String × α)

/-- Dict lookup (`d.get(k)` / `d[k]`): first entry with the given key. -/
def sfind {α : Type} : SMap α → String → Option α
  | [], _ => none
  | (k', v) :: rest, k => if k' = k then some v else sfind rest k

/-- Dict assignment `d[k] = v`. -/
def sinsert {α : Type} : SMap α → String → α → SMap α
  | [], k, v => [(k, v)]
  | (k', v') :: rest, k, v =>
      if k' = k then (k, v) :: rest else (k', v') :: sinsert rest k v

/-- In-place mutation of the value stored under an existing key
(`d[k].field = ...`); a missing key leaves the dict unchanged (the caller
models Python's `KeyError` control flow explicitly where it matters). -/
def smodify {α : Type} : SMap α → String → (α → α) → SMap α
  | [], _, _ => []
  | (k', v) :: rest, k, f =>
      if k' = k then (k', f v) :: rest else (k', v) :: smodify rest k f

/-- Dict deletion `del d[k]`. -/
def serase {α : Type} (m : SMap α) (k : String) : SMap α :=
  m.filter (fun e => decide (e.1 ≠ k))

/-- Membership test `k in d`. -/
def scontains {α : Type} (m : SMap α) (k : String) : Bool :=
  (sfind m k).isSome

/-- Python `set.add` on a set of strings modelled as a duplicate-free list. -/
def addElem (s : List String) (x : String) : List String :=
  if x ∈ s then s else s ++ [x]

/-- Python `set.discard`. -/
def discardElem (s : List String) (x : String) : List String :=
  s.filter (fun y => decide (y ≠ x))

/-- `ConnectionStatus` enum. -/
inductive ConnectionStatus where
  | connected
  | disconnected
  | inactive
deriving DecidableEq

/-- `Visibility` enum. -/
inductive Visibility where
  | team
  | all
deriving DecidableEq

/-- `AlertType` enum. -/
inductive AlertType where
  | contact
  | danger
  | rally
  | help
deriving DecidableEq

/-- `MarkerType` enum. -/
inductive MarkerType where
  | pin
  | area
  | line
deriving DecidableEq

/-- Python `str.upper()` on the ASCII alert-type values: uppercase every
character. -/
def strUpper (s : String) : String := String.mk (s.data.map Char.toUpper)

/-- The string value of an `AlertType` member (`alert_type.value`). -/
def AlertType.value : AlertType → String
  | .contact => "contact"
  | .danger => "danger"
  | .rally => "rally"
  | .help => "help"

/-- `Position` dataclass.  Coordinates, heading, accuracy and elevation are
modelled as real numbers; the `updated_at` timestamp as an integer. -/
structure Position where
  latitude : ℝ
  longitude : ℝ
  heading : ℝ
  accuracy : ℝ
  elevation : ℝ
  updated_at : ℤ

/-- `math.radians`. -/
noncomputable def radians (x : ℝ) : ℝ := x * Real.pi / 180

/-- `math.atan2` on real numbers (standard two-argument arctangent,
argument order `atan2(y, x)` as in Python). -/
noncomputable def atan2 (y x : ℝ) : ℝ :=
  if 0 < x then Real.arctan (y / x)
  else if x < 0 ∧ 0 ≤ y then Real.arctan (y / x) + Real.pi
  else if x < 0 ∧ y < 0 then Real.arctan (y / x) - Real.pi
  else if x = 0 ∧ 0 < y then Real.pi / 2
  else if x = 0 ∧ y < 0 then -(Real.pi / 2)
  else 0

/-- `Position.distance_to`: Haversine great-circle distance in meters on a
sphere of radius 6,371,000 m, exactly as the source computes it. -/
noncomputable def Position.distance_to (p other : Position) : ℝ :=
  let R : ℝ := 6371000
  let lat1 := radians p.latitude
  let lon1 := radians p.longitude
  let lat2 := radians other.latitude
  let lon2 := radians other.longitude
  let dlat := lat2 - lat1
  let dlon := lon2 - lon1
  let a := Real.sin (dlat / 2) ^ 2 +
    Real.cos lat1 * Real.cos lat2 * Real.sin (dlon / 2) ^ 2
  let c := 2 * atan2 (Real.sqrt a) (Real.sqrt (1 - a))
  R * c

/-- `POSITION_UPDATE_THRESHOLD = 2.0` meters. -/
def POSITION_UPDATE_THRESHOLD : ℝ := 2

/-- `INACTIVE_TIMEOUT = 300` seconds. -/
def INACTIVE_TIMEOUT : ℤ := 300

/-- The `Position` built by `handle_position_update` from an inbound
update. -/
def mkPos (lat lon hd acc el : ℝ) (now : ℤ) : Position :=
  { latitude := lat, longitude := lon, heading := hd, accuracy := acc,
    elevation := el, updated_at := now }

/-- `Player` dataclass.  The live websocket handle is modelled as an opaque
connection identifier, present only while the player is routable. -/
structure Player where
  player_id : String
  callsign : String
  team_id : Option String
  connection_status : ConnectionStatus
  last_active : ℤ
  position : Option Position
  device_info : SMap String
  websocket : Option Nat

/-- `Team` dataclass. -/
structure Team where
  team_id : String
  name : String
  color : String
  players : List String
  markers : List String
deriving DecidableEq

/-- `Marker` dataclass.  `team_id` is copied from the creating player's
(optional) team reference, exactly as the source assigns it. -/
structure Marker where
  marker_id : String
  type : MarkerType
  created_by : String
  team_id : Option String
  visibility : Visibility
  position : Position
  properties : SMap String
  created_at : ℤ
  expires_at : Option ℤ

/-- `Message` dataclass (chat message or tactical alert). -/
structure Message where
  message_id : String
  sender_id : String
  team_id : Option String
  visibility : Visibility
  type : String
  content : String
  sent_at : ℤ
  location : Option Position

/-- `Session` dataclass. -/
structure Session where
  session_id : String
  created_at : ℤ
  last_active : ℤ
  host_id : Option String
  teams : SMap Team
  settings : SMap String
  players : SMap Player
  markers : SMap Marker
  messages : List Message
  sequence_number : Nat

/-- The heterogeneous `data` payload of one change record of a `StateDelta`,
as produced by the various `add_change` call sites. -/
inductive ChangeData where
  | message (m : Message)
  | markerFull (m : Marker)
  | markerProps (props : SMap String)
  | playerPosition (pos : Position)
  | playerTeam (team_id : String)
  | playerStatus (player_id : String) (callsign : String)
      (team_id : Option String) (status : ConnectionStatus)
  | empty

/-- One change record appended by `StateDelta.add_change`. -/
structure Change where
  change_type : String
  entity_type : String
  entity_id : String
  data : ChangeData
  path : Option String
  timestamp : ℤ

/-- The observable effect of one `broadcast_delta` call: the wrapped delta
(session id, fresh sequence number, timestamp, changes) together with the
scope it was routed with and the ids of the players the serialized message
was dispatched to. -/
structure Emitted where
  session_id : String
  timestamp : ℤ
  sequence_number : Nat
  changes : List Change
  scope : Option String
  recipients : List String

/-- `TacticalServer.broadcast_delta`: increments the session's sequence
number by one, wraps the delta with the fresh sequence number, resolves the
target players from the scope (a team id, or the whole session), and
dispatches to those targets that are `connected` and hold a live websocket.
A scope naming an unknown team resolves to no targets (the source returns
early after the increment). -/
def broadcast_delta (s : Session) (changes : List Change)
    (team_id : Option String) (now : ℤ) : Session × Emitted :=
  let s' := { s with sequence_number := s.sequence_number + 1 }
  let targets : List (String × Player) :=
    match team_id with
    | some tid =>
        match sfind s'.teams tid with
        | none => []
        | some team =>
            team.players.filterMap
              (fun pid => (sfind s'.players pid).map (fun p => (pid, p)))
    | none => s'.players
  let recips :=
    (targets.filter (fun e =>
      e.2.websocket.isSome && decide (e.2.connection_status = ConnectionStatus.connected))).map
      (fun e => e.1)
  (s', { session_id := s.session_id, timestamp := now,
         sequence_number := s'.sequence_number, changes := changes,
         scope := team_id, recipients := recips })

/-- `TacticalServer.broadcast_player_update`: public player fields packed
into a change record, broadcast with scope "all". -/
def broadcast_player_update (s : Session) (player : Player)
    (change_type : String) (now : ℤ) : Session × Emitted :=
  let change : Change :=
    { change_type := change_type, entity_type := "player",
      entity_id := player.player_id,
      data := ChangeData.playerStatus player.player_id player.callsign
        player.team_id player.connection_status,
      path := none, timestamp := now }
  broadcast_delta s [change] none now

/-- First key of the team dict attaining the minimal member count, scanning
in iteration (insertion) order — the value of
`min(team_counts, key=team_counts.get)`, since Python's `min` keeps the
earliest element among ties. -/
def minTeamKey : SMap Team → Option (String × Nat)
  | [] => none
  | (tid, t) :: rest =>
      match minTeamKey rest with
      | none => some (tid, t.players.length)
      | some (btid, bc) =>
          if t.players.length ≤ bc then some (tid, t.players.length)
          else some (btid, bc)

/-- Session creation on host authentication: fresh session with the two
default teams "Alpha" (green) and "Bravo" (red), in that insertion order. -/
def create_session (sid tidA tidB : String) (now : ℤ) : Session :=
  { session_id := sid, created_at := now, last_active := now, host_id := none,
    teams :=
      [(tidA, { team_id := tidA, name := "Alpha", color := "#00FF00",
                players := [], markers := [] }),
       (tidB, { team_id := tidB, name := "Bravo", color := "#FF0000",
                players := [], markers := [] })],
    settings := [], players := [], markers := [], messages := [],
    sequence_number := 0 }

/-- The session-level effect of `TacticalServer.handle_auth` after the
session has been created or looked up: create the player record, assign it
to the team with the fewest members (ties to the first team in iteration
order), record the host id when authenticating as host, insert the player,
and broadcast a player-joined update with scope "all".  The full-state
snapshot sent back to the authenticating player is `get_filtered_state`. -/
def handle_auth_join (s : Session) (pid callsign : String)
    (device_info : SMap String) (conn : Nat) (is_host : Bool) (now : ℤ) :
    Session × List Emitted :=
  let player : Player :=
    { player_id := pid, callsign := callsign, team_id := none,
      connection_status := ConnectionStatus.connected, last_active := now,
      position := none, device_info := device_info, websocket := some conn }
  match minTeamKey s.teams with
  | some (tid, _) =>
      let player1 := { player with team_id := some tid }
      let teams' := smodify s.teams tid
        (fun t => { t with players := addElem t.players pid })
      let s1 := { s with teams := teams',
                         host_id := if is_host then some pid else s.host_id }
      let s2 := { s1 with players := sinsert s1.players pid player1 }
      let r := broadcast_player_update s2 player1 "add" now
      (r.1, [r.2])
  | none =>
      let s1 := { s with
                  host_id := if is_host then some pid else s.host_id }
      let s2 := { s1 with players := sinsert s1.players pid player }
      let r := broadcast_player_update s2 player "add" now
      (r.1, [r.2])

/-- `TacticalServer.handle_position_update`: build the new `Position`; if the
player has no stored position, or the Haversine distance from the stored
position strictly exceeds the 2 m threshold, replace the stored position,
refresh `last_active`, and broadcast a position change scoped to the
sender's team; otherwise do nothing. -/
noncomputable def handle_position_update (s : Session) (pid : String)
    (latitude longitude heading accuracy elevation : ℝ) (now : ℤ) :
    Session × List Emitted :=
  match sfind s.players pid with
  | none => (s, [])
  | some player =>
    let new_position : Position :=
      mkPos latitude longitude heading accuracy elevation now
    let doMove : Session × List Emitted :=
      let player' :=
        { player with position := some new_position, last_active := now }
      let s1 := { s with players := sinsert s.players pid player' }
      let change : Change :=
        { change_type := "update", entity_type := "player", entity_id := pid,
          data := ChangeData.playerPosition new_position, path := none,
          timestamp := now }
      let r := broadcast_delta s1 [change] player'.team_id now
      (r.1, [r.2])
    match player.position with
    | none => doMove
    | some old =>
        if Position.distance_to old new_position > POSITION_UPDATE_THRESHOLD
        then doMove
        else (s, [])

/-- `TacticalServer.handle_chat`: build the `Message` (visibility defaulting
to `team`, content truncated to 500 characters), append it, truncate the
session's message list to the most recent 100, then broadcast the new
message scoped to the sender's team when its visibility is `team` and to
everyone otherwise. -/
def handle_chat (s : Session) (pid : String) (content : String)
    (visibility : Option Visibility) (location : Option Position)
    (msgId : String) (now : ℤ) : Session × List Emitted :=
  match sfind s.players pid with
  | none => (s, [])
  | some player =>
    let message : Message :=
      { message_id := msgId, sender_id := pid, team_id := player.team_id,
        visibility := visibility.getD Visibility.team, type := "chat",
        content := content.take 500, sent_at := now, location := location }
    let msgs0 := s.messages ++ [message]
    let msgs := if msgs0.length > 100 then msgs0.drop (msgs0.length - 100)
                else msgs0
    let s1 := { s with messages := msgs }
    let change : Change :=
      { change_type := "add", entity_type := "message", entity_id := msgId,
        data := ChangeData.message message, path := none, timestamp := now }
    if message.visibility = Visibility.team then
      let r := broadcast_delta s1 [change] player.team_id now
      (r.1, [r.2])
    else
      let r := broadcast_delta s1 [change] none now
      (r.1, [r.2])

/-- `TacticalServer.handle_alert`: build an alert `Message` with visibility
hard-coded to `team`, content `"<ALERT_TYPE> - <callsign>"`, and location
falling back to the sender's stored position; append it to the session's
message list (with no truncation), and broadcast it scoped to the sender's
team. -/
def handle_alert (s : Session) (pid : String) (alert_type : AlertType)
    (location : Option Position) (msgId : String) (now : ℤ) :
    Session × List Emitted :=
  match sfind s.players pid with
  | none => (s, [])
  | some player =>
    let message : Message :=
      { message_id := msgId, sender_id := pid, team_id := player.team_id,
        visibility := Visibility.team, type := "alert",
        content := strUpper (AlertType.value alert_type) ++ " - " ++ player.callsign,
        sent_at := now,
        location := match location with
                    | some l => some l
                    | none => player.position }
    let s1 := { s with messages := s.messages ++ [message] }
    let change : Change :=
      { change_type := "add", entity_type := "message", entity_id := msgId,
        data := ChangeData.message message, path := none, timestamp := now }
    let r := broadcast_delta s1 [change] player.team_id now
    (r.1, [r.2])

/-- An inbound `marker` request, by `action`. -/
inductive MarkerReq where
  | create (mtype : MarkerType) (visibility : Option Visibility)
      (pos : Position) (props : SMap String) (markerId : String)
  | update (marker_id : String) (props : Option (SMap String))
  | delete (marker_id : String)

/-- `TacticalServer.handle_marker`.  Create inserts a new marker owned by
the sender's team and broadcasts it by its visibility.  Update and delete
are performed only when the stored marker's `created_by` equals the
requesting player's id; otherwise the request is silently ignored.  Update
shallow-merges the supplied properties into the marker's property map.  The
source indexes `session.teams` with the sender's (or marker's) team id
without a guard; a missing key raises there after the marker map has been
mutated, which is modelled by returning the partially-mutated state with no
broadcast. -/
def handle_marker (s : Session) (pid : String) (req : MarkerReq) (now : ℤ) :
    Session × List Emitted :=
  match sfind s.players pid with
  | none => (s, [])
  | some player =>
    match req with
    | .create mtype visibility pos props markerId =>
      let marker : Marker :=
        { marker_id := markerId, type := mtype, created_by := pid,
          team_id := player.team_id,
          visibility := visibility.getD Visibility.team, position := pos,
          properties := props, created_at := now, expires_at := none }
      let s1 := { s with markers := sinsert s.markers markerId marker }
      match player.team_id with
      | none => (s1, [])
      | some ptid =>
        match sfind s1.teams ptid with
        | none => (s1, [])
        | some _ =>
          let teams2 := smodify s1.teams ptid
            (fun t => { t with markers := addElem t.markers markerId })
          let s2 := { s1 with teams := teams2 }
          let change : Change :=
            { change_type := "add", entity_type := "marker",
              entity_id := markerId, data := ChangeData.markerFull marker,
              path := none, timestamp := now }
          if marker.visibility = Visibility.team then
            let r := broadcast_delta s2 [change] player.team_id now
            (r.1, [r.2])
          else
            let r := broadcast_delta s2 [change] none now
            (r.1, [r.2])
    | .update marker_id props =>
      match sfind s.markers marker_id with
      | none => (s, [])
      | some marker =>
        if marker.created_by = pid then
          let marker' :=
            match props with
            | some newProps =>
                { marker with properties :=
                    newProps.foldl (fun m e => sinsert m e.1 e.2) marker.properties }
            | none => marker
          let s1 := { s with markers := sinsert s.markers marker_id marker' }
          let change : Change :=
            { change_type := "update", entity_type := "marker",
              entity_id := marker_id,
              data := ChangeData.markerProps marker'.properties,
              path := none, timestamp := now }
          if marker.visibility = Visibility.team then
            let r := broadcast_delta s1 [change] player.team_id now
            (r.1, [r.2])
          else
            let r := broadcast_delta s1 [change] none now
            (r.1, [r.2])
        else (s, [])
    | .delete marker_id =>
      match sfind s.markers marker_id with
      | none => (s, [])
      | some marker =>
        if marker.created_by = pid then
          let s1 := { s with markers := serase s.markers marker_id }
          match marker.team_id with
          | none => (s1, [])
          | some mtid =>
            match sfind s1.teams mtid with
            | none => (s1, [])
            | some _ =>
              let teams2 := smodify s1.teams mtid
                (fun t => { t with markers := discardElem t.markers marker_id })
              let s2 := { s1 with teams := teams2 }
              let change : Change :=
                { change_type := "remove", entity_type := "marker",
                  entity_id := marker_id, data := ChangeData.empty,
                  path := none, timestamp := now }
              if marker.visibility = Visibility.team then
                let r := broadcast_delta s2 [change] player.team_id now
                (r.1, [r.2])
              else
                let r := broadcast_delta s2 [change] none now
                (r.1, [r.2])
        else (s, [])

/-- `TacticalServer.handle_team_update` with `action == "assign_player"`:
when the named player exists and the destination team exists, remove the
player from its old team's member set, set the player's team reference, add
it to the new team's member set, and broadcast the reassignment with scope
"all".  The unguarded `session.teams[player.team_id]` lookup raises before
any mutation when the old team id is dangling, modelled by returning the
state unchanged. -/
def handle_team_update (s : Session) (player_id new_team_id : String)
    (now : ℤ) : Session × List Emitted :=
  match sfind s.players player_id with
  | none => (s, [])
  | some player =>
    if (sfind s.teams new_team_id).isSome then
      let go : Session → Session × List Emitted := fun s1 =>
        let player' := { player with team_id := some new_team_id }
        let s2 := { s1 with players := sinsert s1.players player_id player' }
        let teams3 := smodify s2.teams new_team_id
          (fun t => { t with players := addElem t.players player_id })
        let s3 := { s2 with teams := teams3 }
        let change : Change :=
          { change_type := "update", entity_type := "player",
            entity_id := player_id, data := ChangeData.playerTeam new_team_id,
            path := none, timestamp := now }
        let r := broadcast_delta s3 [change] none now
        (r.1, [r.2])
      match player.team_id with
      | some old_tid =>
        match sfind s.teams old_tid with
        | none => (s, [])
        | some _ =>
          let teams1 := smodify s.teams old_tid
            (fun t => { t with players := discardElem t.players player_id })
          go { s with teams := teams1 }
      | none => go s
    else (s, [])

/-- `TacticalServer.get_filtered_state`: every team with public fields,
every player with public fields plus its position only when its team equals
the viewer's team, the markers whose visibility is `all` or whose owning
team is the viewer's, and the visible messages among the session's most
recent 50. -/
structure TeamPublic where
  team_id : String
  name : String
  color : String
  players : List String
deriving DecidableEq

/-- Public player fields as rendered into a snapshot; `position = none`
models the omitted position key. -/
structure PlayerPublic where
  player_id : String
  callsign : String
  team_id : Option String
  connection_status : ConnectionStatus
  position : Option Position

/-- The filtered snapshot returned at authentication time. -/
structure FilteredState where
  session_id : String
  sequence_number : Nat
  teams : SMap TeamPublic
  players : SMap PlayerPublic
  markers : SMap Marker
  messages : List Message

/-- Public rendering of one player for a given viewer team. -/
def publicPlayer (viewer : Option String) (p : Player) : PlayerPublic :=
  { player_id := p.player_id, callsign := p.callsign, team_id := p.team_id,
    connection_status := p.connection_status,
    position := if p.team_id = viewer ∧ p.position.isSome then p.position
                else none }

/-- `TacticalServer.get_filtered_state`. -/
def get_filtered_state (s : Session) (team_id : Option String) :
    FilteredState :=
  { session_id := s.session_id, sequence_number := s.sequence_number,
    teams := s.teams.map (fun e =>
      (e.1, { team_id := e.2.team_id, name := e.2.name, color := e.2.color,
              players := e.2.players })),
    players := s.players.map (fun e => (e.1, publicPlayer team_id e.2)),
    markers := s.markers.filter (fun e =>
      decide (e.2.visibility = Visibility.all ∨ e.2.team_id = team_id)),
    messages := (s.messages.drop (s.messages.length - 50)).filter (fun m =>
      decide (m.visibility = Visibility.all ∨ m.team_id = team_id)) }

/-- Spec-side reading of the snapshot's message clause: the most recent 50
among the messages visible to the viewer. -/
def specMostRecentVisibleMessages (s : Session) (team_id : Option String) :
    List Message :=
  let vis := s.messages.filter (fun m =>
    decide (m.visibility = Visibility.all ∨ m.team_id = team_id))
  vis.drop (vis.length - 50)

/-- The whole-server state: the session registry and the side table of live
connections. -/
structure ServerState where
  sessions : SMap Session
  player_connections : SMap Nat

/-- `TacticalServer.handle_disconnect`: mark the player disconnected, drop
its websocket handle, remove it from the connection table, and broadcast a
player-status update with scope "all".  The player record itself stays in
the session, and the session stays in the registry.  (If the connection
table had no entry, the `del` would raise after the status mutations,
skipping the broadcast; that path is modelled explicitly.) -/
def handle_disconnect (st : ServerState) (pid sid : String) (now : ℤ) :
    ServerState × List Emitted :=
  match sfind st.sessions sid with
  | none => (st, [])
  | some sess =>
    match sfind sess.players pid with
    | none => (st, [])
    | some p =>
      let p' :=
        { p with connection_status := ConnectionStatus.disconnected,
                 websocket := none }
      let sess1 := { sess with players := sinsert sess.players pid p' }
      if scontains st.player_connections pid then
        let conns := serase st.player_connections pid
        let r := broadcast_player_update sess1 p' "update" now
        ({ sessions := sinsert st.sessions sid r.1,
           player_connections := conns }, [r.2])
      else
        ({ st with sessions := sinsert st.sessions sid sess1 }, [])

/-- The per-session part of one `update_loop` tick: every `connected` player
whose `last_active` is more than 300 s old is marked `inactive` and a
player-status update is broadcast with scope "all". -/
def sweep_step (now : ℤ) (acc : Session × List Emitted) (e : String × Player) :
    Session × List Emitted :=
  match sfind acc.1.players e.1 with
  | none => acc
  | some p =>
    if p.connection_status = ConnectionStatus.connected ∧
        now - p.last_active > INACTIVE_TIMEOUT then
      let p' := { p with connection_status := ConnectionStatus.inactive }
      let s1 := { acc.1 with players := sinsert acc.1.players e.1 p' }
      let r := broadcast_player_update s1 p' "update" now
      (r.1, acc.2 ++ [r.2])
    else acc

def sweep_session (s : Session) (now : ℤ) : Session × List Emitted :=
  s.players.foldl (sweep_step now) (s, [])

/-- One tick of `TacticalServer.update_loop`: sweep every session for
inactive players, then remove every session whose player map is empty. -/
def update_tick (st : ServerState) (now : ℤ) : ServerState × List Emitted :=
  let swept := st.sessions.map (fun e => (e.1, sweep_session e.2 now))
  let emitted := (swept.map (fun e => e.2.2)).foldl (fun a b => a ++ b) []
  let kept := (swept.map (fun e => (e.1, e.2.1))).filter
    (fun e => !e.2.players.isEmpty)
  ({ st with sessions := kept }, emitted)

/-! ### Lemmas about the dict and set models -/

theorem sfind_insert_self {α : Type} (m : SMap α) (k : String) (v : α) :
    sfind (sinsert m k v) k = some v := by
  induction m with
  | nil => simp [sinsert, sfind]
  | cons e rest ih =>
      by_cases h : e.1 = k
      · simp [sinsert, sfind, h]
      · simp [sinsert, sfind, h, ih]

theorem sfind_insert_ne {α : Type} (m : SMap α) {k k' : String} (v : α)
    (h : k' ≠ k) : sfind (sinsert m k v) k' = sfind m k' := by
  induction m with
  | nil => simp [sinsert, sfind, Ne.symm h]
  | cons e rest ih =>
      by_cases he : e.1 = k
      · subst he
        simp [sinsert, sfind, Ne.symm h]
      · by_cases he' : e.1 = k'
        · simp [sinsert, sfind, he, he', h]
        · simp [sinsert, sfind, he, he', ih]

theorem sfind_modify_self {α : Type} (m : SMap α) (k : String) (f : α → α) :
    sfind (smodify m k f) k = (sfind m k).map f := by
  induction m with
  | nil => simp [smodify, sfind]
  | cons e rest ih =>
      by_cases h : e.1 = k
      · simp [smodify, sfind, h]
      · simp [smodify, sfind, h, ih]

theorem sfind_modify_ne {α : Type} (m : SMap α) {k k' : String} (f : α → α)
    (h : k' ≠ k) : sfind (smodify m k f) k' = sfind m k' := by
  induction m with
  | nil => simp [smodify, sfind]
  | cons e rest ih =>
      by_cases he : e.1 = k
      · subst he
        simp [smodify, sfind, Ne.symm h]
      · by_cases he' : e.1 = k'
        · simp [smodify, sfind, he, he', h]
        · simp [smodify, sfind, he, he', ih]

theorem sfind_mem {α : Type} {m : SMap α} {k : String} {v : α}
    (h : sfind m k = some v) : (k, v) ∈ m := by
  induction m with
  | nil => simp [sfind] at h
  | cons e rest ih =>
      obtain ⟨k1, v1⟩ := e
      by_cases he : k1 = k
      · subst he
        simp [sfind] at h
        subst h
        exact List.mem_cons_self _ _
      · simp only [sfind, if_neg he] at h
        exact List.mem_cons_of_mem _ (ih h)

theorem mem_keys_of_sfind {α : Type} {m : SMap α} {k : String} {v : α}
    (h : sfind m k = some v) : k ∈ m.map Prod.fst := by
  have := sfind_mem h
  exact List.mem_map.mpr ⟨(k, v), this, rfl⟩

theorem sfind_eq_none_of_not_mem {α : Type} {m : SMap α} {k : String}
    (h : k ∉ m.map Prod.fst) : sfind m k = none := by
  induction m with
  | nil => simp [sfind]
  | cons e rest ih =>
      simp only [List.map_cons, List.mem_cons] at h
      push_neg at h
      simp [sfind, Ne.symm h.1, ih h.2]

theorem sfind_map {α β : Type} (g : String → α → β) (m : SMap α)
    (k : String) :
    sfind (m.map (fun e => (e.1, g e.1 e.2))) k = (sfind m k).map (g k) := by
  induction m with
  | nil => simp [sfind]
  | cons e rest ih =>
      by_cases h : e.1 = k
      · subst h
        simp [sfind]
      · simp [sfind, h, ih]

theorem keys_smodify {α : Type} (m : SMap α) (k : String) (f : α → α) :
    (smodify m k f).map Prod.fst = m.map Prod.fst := by
  induction m with
  | nil => simp [smodify]
  | cons e rest ih =>
      by_cases h : e.1 = k
      · simp [smodify, h]
      · simp [smodify, h, ih]

theorem keys_sinsert_of_found {α : Type} {m : SMap α} {k : String} {v0 : α}
    (h : sfind m k = some v0) (v : α) :
    (sinsert m k v).map Prod.fst = m.map Prod.fst := by
  induction m with
  | nil => simp [sfind] at h
  | cons e rest ih =>
      by_cases he : e.1 = k
      · simp [sinsert, he]
      · simp [sfind, he] at h
        simp [sinsert, he, ih h]

theorem sfind_filter {α : Type} (p : String × α → Bool) {m : SMap α}
    (hnd : (m.map Prod.fst).Nodup) (k : String) :
    sfind (m.filter p) k =
      (sfind m k).bind (fun v => if p (k, v) then some v else none) := by
  induction m with
  | nil => simp [sfind]
  | cons e rest ih =>
      simp only [List.map_cons, List.nodup_cons] at hnd
      by_cases he : e.1 = k
      · subst he
        by_cases hp : p e
        · simp [List.filter_cons, hp, sfind]
        · have hnone : sfind (rest.filter p) e.1 = none := by
            apply sfind_eq_none_of_not_mem
            intro hmem
            exact hnd.1 (by
              rcases List.mem_map.mp hmem with ⟨x, hx, hfst⟩
              exact List.mem_map.mpr ⟨x, (List.mem_filter.mp hx).1, hfst⟩)
          have hpe : p (e.1, e.2) = false := by
            simpa using hp
          simp [List.filter_cons, hp, sfind, hnone, hpe]
      · by_cases hp : p e
        · simp [List.filter_cons, hp, sfind, he, ih hnd.2]
        · simp [List.filter_cons, hp, sfind, he, ih hnd.2]

theorem mem_addElem {s : List String} {x y : String} :
    y ∈ addElem s x ↔ y ∈ s ∨ y = x := by
  unfold addElem
  by_cases h : x ∈ s
  · simp only [if_pos h]
    constructor
    · exact Or.inl
    · rintro (hy | rfl)
      · exact hy
      · exact h
  · simp [if_neg h]

theorem mem_discardElem {s : List String} {x y : String} :
    y ∈ discardElem s x ↔ y ∈ s ∧ y ≠ x := by
  simp [discardElem]

theorem sinsert_ne_nil {α : Type} (m : SMap α) (k : String) (v : α) :
    sinsert m k v ≠ [] := by
  cases m with
  | nil => simp [sinsert]
  | cons e rest =>
      by_cases h : e.1 = k <;> simp [sinsert, h]

/-! ### The bidirectional team-membership invariant -/

/-- Team `tid` exists in the team map and its member set holds `pid`. -/
def teamHas (teams : SMap Team) (tid pid : String) : Prop :=
  ∃ t, sfind teams tid = some t ∧ pid ∈ t.players

instance decTeamHas (teams : SMap Team) (tid pid : String) :
    Decidable (teamHas teams tid pid) :=
  match h : sfind teams tid with
  | some t =>
      if hp : pid ∈ t.players then isTrue ⟨t, h, hp⟩
      else isFalse (by
        rintro ⟨t', ht', hp'⟩
        rw [h] at ht'
        cases ht'
        exact hp hp')
  | none => isFalse (by
      rintro ⟨t', ht', _⟩
      rw [h] at ht'
      cases ht')

/-- Per-player half of the invariant: a non-null team reference points at an
existing team of the same session whose member set holds the player's id. -/
def playerOk (teams : SMap Team) (pid : String) (p : Player) : Prop :=
  ∀ tid, p.team_id = some tid → teamHas teams tid pid

instance decPlayerOk (teams : SMap Team) (pid : String) (p : Player) :
    Decidable (playerOk teams pid p) :=
  match h : p.team_id with
  | some tid =>
      if ht : teamHas teams tid pid then
        isTrue (fun tid' h' => by
          rw [h] at h'
          cases h'
          exact ht)
      else isFalse (fun hall => ht (hall tid h))
  | none => isTrue (fun tid h' => by rw [h] at h'; cases h')

/-- Player `pid` exists in the player map and is assigned to team `tid`. -/
def assignedTo (players : SMap Player) (pid tid : String) : Prop :=
  ∃ p, sfind players pid = some p ∧ p.team_id = some tid

instance decAssignedTo (players : SMap Player) (pid tid : String) :
    Decidable (assignedTo players pid tid) :=
  match h : sfind players pid with
  | some p =>
      if ht : p.team_id = some tid then isTrue ⟨p, h, ht⟩
      else isFalse (by
        rintro ⟨p', hp', ht'⟩
        rw [h] at hp'
        cases hp'
        exact ht ht')
  | none => isFalse (by
      rintro ⟨p', hp', _⟩
      rw [h] at hp'
      cases hp')

/-- Per-team half of the invariant: every member of a team's member set is
an existing player whose team reference is that team. -/
def teamOk (players : SMap Player) (tid : String) (t : Team) : Prop :=
  ∀ pid ∈ t.players, assignedTo players pid tid

instance decTeamOk (players : SMap Player) (tid : String) (t : Team) :
    Decidable (teamOk players tid t) :=
  inferInstanceAs (Decidable (∀ pid ∈ t.players, assignedTo players pid tid))

/-- Bidirectional team-membership consistency over a players map and a
teams map. -/
def InvPT (players : SMap Player) (teams : SMap Team) : Prop :=
  (∀ pid p, sfind players pid = some p → playerOk teams pid p) ∧
  (∀ tid t, sfind teams tid = some t → teamOk players tid t)

/-- The session-level bidirectional membership invariant. -/
def Inv (s : Session) : Prop := InvPT s.players s.teams

/-- The invariant follows from checking the finitely many map entries. -/
theorem InvPT_of_entries {players : SMap Player} {teams : SMap Team}
    (h1 : ∀ e ∈ players, playerOk teams e.1 e.2)
    (h2 : ∀ e ∈ teams, teamOk players e.1 e.2) : InvPT players teams :=
  ⟨fun pid p hp => h1 (pid, p) (sfind_mem hp),
   fun tid t ht => h2 (tid, t) (sfind_mem ht)⟩

/-- Under the invariant, an assigned player's id appears in no team other
than its own. -/
theorem InvPT_unique_team {players : SMap Player} {teams : SMap Team}
    (hInv : InvPT players teams) {pid tid tid' : String} {p : Player}
    {t' : Team} (hp : sfind players pid = some p)
    (htid : p.team_id = some tid) (ht' : sfind teams tid' = some t')
    (hne : tid' ≠ tid) : pid ∉ t'.players := by
  intro hmem
  rcases hInv.2 tid' t' ht' pid hmem with ⟨q, hq, hqt⟩
  rw [hp] at hq
  cases hq
  rw [htid] at hqt
  exact hne (by cases hqt; rfl)

/-- Replacing a stored player by one with the same team reference preserves
the invariant (status / websocket / position refreshes). -/
theorem InvPT_insert_same_team {players : SMap Player} {teams : SMap Team}
    {pid : String} {p p' : Player} (hInv : InvPT players teams)
    (hfind : sfind players pid = some p) (hteam : p'.team_id = p.team_id) :
    InvPT (sinsert players pid p') teams := by
  constructor
  · intro pid' q hq
    by_cases h : pid' = pid
    · subst h
      rw [sfind_insert_self] at hq
      cases hq
      intro tid htid
      rw [hteam] at htid
      exact hInv.1 pid' p hfind tid htid
    · rw [sfind_insert_ne _ _ h] at hq
      exact hInv.1 pid' q hq
  · intro tid t ht pid' hmem
    rcases hInv.2 tid t ht pid' hmem with ⟨q, hq, hqt⟩
    by_cases h : pid' = pid
    · subst h
      refine ⟨p', sfind_insert_self _ _ _, ?_⟩
      rw [hfind] at hq
      cases hq
      rw [hteam]
      exact hqt
    · exact ⟨q, by rw [sfind_insert_ne _ _ h]; exact hq, hqt⟩

/-- Adding a member to some team can only grow membership. -/
theorem teamHas_modify_add {teams : SMap Team} {tid tid' pid pid' : String}
    (h : teamHas teams tid' pid') :
    teamHas
      (smodify teams tid (fun t => { t with players := addElem t.players pid }))
      tid' pid' := by
  rcases h with ⟨t, ht, hp⟩
  by_cases he : tid' = tid
  · subst he
    refine ⟨{ t with players := addElem t.players pid }, ?_, ?_⟩
    · rw [sfind_modify_self, ht]
      rfl
    · exact mem_addElem.mpr (Or.inl hp)
  · exact ⟨t, by rw [sfind_modify_ne _ _ he]; exact ht, hp⟩

/-- A minimal-count team key returned by `minTeamKey` names an existing
team. -/
theorem minTeamKey_sfind_isSome {teams : SMap Team} {tid : String} {c : Nat}
    (h : minTeamKey teams = some (tid, c)) :
    ∃ t, sfind teams tid = some t := by
  induction teams with
  | nil => simp [minTeamKey] at h
  | cons e rest ih =>
      obtain ⟨k, t0⟩ := e
      cases hr : minTeamKey rest with
      | none =>
          simp only [minTeamKey, hr] at h
          cases h
          exact ⟨t0, by simp [sfind]⟩
      | some b =>
          obtain ⟨btid, bc⟩ := b
          simp only [minTeamKey, hr] at h
          by_cases hle : t0.players.length ≤ bc
          · rw [if_pos hle] at h
            cases h
            exact ⟨t0, by simp [sfind]⟩
          · rw [if_neg hle] at h
            cases h
            rcases ih hr with ⟨t, ht⟩
            by_cases hk : k = tid
            · exact ⟨t0, by simp [sfind, hk]⟩
            · exact ⟨t, by simp [sfind, hk, ht]⟩

/-! ### Frame lemmas and generic fold preservation -/

@[simp] theorem broadcast_delta_fst (s : Session) (changes : List Change)
    (scope : Option String) (now : ℤ) :
    (broadcast_delta s changes scope now).1
      = { s with sequence_number := s.sequence_number + 1 } := rfl

@[simp] theorem broadcast_player_update_fst (s : Session) (p : Player)
    (ct : String) (now : ℤ) :
    (broadcast_player_update s p ct now).1
      = { s with sequence_number := s.sequence_number + 1 } := rfl

theorem Inv_set_seq (s : Session) (n : Nat) :
    Inv { s with sequence_number := n } ↔ Inv s := Iff.rfl

theorem foldl_preserve {α β : Type} (P : β → Prop) (step : β → α → β)
    (h : ∀ acc e, P acc → P (step acc e)) :
    ∀ (l : List α) (init : β), P init → P (l.foldl step init)
  | [], _, hi => hi
  | e :: rest, init, hi =>
      foldl_preserve P step h rest (step init e) (h init e hi)

/-! ### Iterated broadcasting and the sequence counter -/

/-- Run `broadcast_delta` once per requested delta, collecting the sequence
numbers carried by the emitted deltas in order. -/
def broadcastSeqs (s : Session) :
    List (List Change × Option String × ℤ) → Session × List Nat
  | [] => (s, [])
  | op :: rest =>
      let r := broadcast_delta s op.1 op.2.1 op.2.2
      let rr := broadcastSeqs r.1 rest
      (rr.1, r.2.sequence_number :: rr.2)

theorem broadcastSeqs_spec (ops : List (List Change × Option String × ℤ)) :
    ∀ s : Session,
      (broadcastSeqs s ops).2
          = List.range' (s.sequence_number + 1) ops.length ∧
      (broadcastSeqs s ops).1.sequence_number
          = s.sequence_number + ops.length := by
  induction ops with
  | nil => intro s; exact ⟨rfl, rfl⟩
  | cons op rest ih =>
      intro s
      have h := ih { s with sequence_number := s.sequence_number + 1 }
      constructor
      · show (broadcast_delta s op.1 op.2.1 op.2.2).2.sequence_number ::
            (broadcastSeqs { s with
              sequence_number := s.sequence_number + 1 } rest).2 = _
        rw [h.1]
        rfl
      · show (broadcastSeqs { s with
            sequence_number := s.sequence_number + 1 } rest).1.sequence_number = _
        rw [h.2]
        simp
        omega

/-! ### The sequence counter never decreases under any handler -/

theorem seq_mono_chat (s : Session) (pid content : String)
    (vis : Option Visibility) (loc : Option Position) (mid : String)
    (now : ℤ) :
    s.sequence_number ≤ (handle_chat s pid content vis loc mid now).1.sequence_number := by
  unfold handle_chat
  dsimp only
  repeat' split
  all_goals simp

theorem seq_mono_alert (s : Session) (pid : String) (a : AlertType)
    (loc : Option Position) (mid : String) (now : ℤ) :
    s.sequence_number ≤ (handle_alert s pid a loc mid now).1.sequence_number := by
  unfold handle_alert
  dsimp only
  repeat' split
  all_goals simp

theorem seq_mono_marker (s : Session) (pid : String) (req : MarkerReq)
    (now : ℤ) :
    s.sequence_number ≤ (handle_marker s pid req now).1.sequence_number := by
  unfold handle_marker
  dsimp only
  repeat' split
  all_goals simp

theorem seq_mono_team_update (s : Session) (pid tid : String) (now : ℤ) :
    s.sequence_number ≤ (handle_team_update s pid tid now).1.sequence_number := by
  unfold handle_team_update
  dsimp only
  repeat' split
  all_goals simp

theorem seq_mono_auth (s : Session) (pid callsign : String)
    (dev : SMap String) (conn : Nat) (is_host : Bool) (now : ℤ) :
    s.sequence_number
      ≤ (handle_auth_join s pid callsign dev conn is_host now).1.sequence_number := by
  unfold handle_auth_join
  dsimp only
  repeat' split
  all_goals simp

theorem seq_mono_position (s : Session) (pid : String)
    (lat lon hd acc el : ℝ) (now : ℤ) :
    s.sequence_number
      ≤ (handle_position_update s pid lat lon hd acc el now).1.sequence_number := by
  unfold handle_position_update
  dsimp only
  repeat' split
  all_goals simp

theorem seq_mono_sweep (s : Session) (now : ℤ) :
    s.sequence_number ≤ (sweep_session s now).1.sequence_number := by
  unfold sweep_session
  refine foldl_preserve
    (fun acc : Session × List Emitted =>
      s.sequence_number ≤ acc.1.sequence_number) _ ?_ _ _ le_rfl
  intro acc e hacc
  unfold sweep_step
  dsimp only
  repeat' split
  all_goals
    (first
      | exact hacc
      | (simp only [broadcast_player_update_fst]
         omega))

/-! ### Concrete fixtures used by witness theorems -/

def exTeamA : Team :=
  { team_id := "A", name := "Alpha", color := "#00FF00",
    players := ["p1", "p2"], markers := [] }

def exTeamB : Team :=
  { team_id := "B", name := "Bravo", color := "#FF0000",
    players := ["p3"], markers := [] }

def exPlayer (i : String) (t : String) (c : ConnectionStatus)
    (w : Option Nat) : Player :=
  { player_id := i, callsign := "c" ++ i, team_id := some t,
    connection_status := c, last_active := 0, position := none,
    device_info := [], websocket := w }

def exSession : Session :=
  { session_id := "S", created_at := 0, last_active := 0,
    host_id := some "p1",
    teams := [("A", exTeamA), ("B", exTeamB)], settings := [],
    players := [("p1", exPlayer "p1" "A" .connected (some 1)),
                ("p2", exPlayer "p2" "A" .disconnected none),
                ("p3", exPlayer "p3" "B" .connected (some 3))],
    markers := [], messages := [], sequence_number := 0 }

/-! ### Claim theorems -/

/-- Claim C1: every `broadcast_delta` call increments the session's
sequence counter by exactly one and stamps the emitted delta with the new
value, so N successive broadcasts from a fresh session emit exactly the
sequence numbers 1..N (strictly increasing, no repeats, no gaps), and no
handler of the server ever decreases (resets) the counter. -/
theorem C1_sequence_numbers :
    (∀ (s : Session) (changes : List Change) (scope : Option String)
        (now : ℤ),
      (broadcast_delta s changes scope now).1.sequence_number
          = s.sequence_number + 1 ∧
      (broadcast_delta s changes scope now).2.sequence_number
          = s.sequence_number + 1) ∧
    (∀ (s : Session) (ops : List (List Change × Option String × ℤ)),
      (broadcastSeqs s ops).2
          = List.range' (s.sequence_number + 1) ops.length ∧
      (broadcastSeqs s ops).1.sequence_number
          = s.sequence_number + ops.length) ∧
    (∀ (s : Session) (ops : List (List Change × Option String × ℤ)),
      s.sequence_number = 0 →
      (broadcastSeqs s ops).2 = List.range' 1 ops.length) ∧
    (∀ s pid content vis loc mid now,
      s.sequence_number
        ≤ (handle_chat s pid content vis loc mid now).1.sequence_number) ∧
    (∀ s pid a loc mid now,
      s.sequence_number
        ≤ (handle_alert s pid a loc mid now).1.sequence_number) ∧
    (∀ s pid req now,
      s.sequence_number
        ≤ (handle_marker s pid req now).1.sequence_number) ∧
    (∀ s pid tid now,
      s.sequence_number
        ≤ (handle_team_update s pid tid now).1.sequence_number) ∧
    (∀ s pid callsign dev conn is_host now,
      s.sequence_number
        ≤ (handle_auth_join s pid callsign dev conn is_host now).1.sequence_number) ∧
    (∀ s pid lat lon hd acc el now,
      s.sequence_number
        ≤ (handle_position_update s pid lat lon hd acc el now).1.sequence_number) ∧
    (∀ s now, s.sequence_number ≤ (sweep_session s now).1.sequence_number) := by
  refine ⟨fun s c sc n => ⟨rfl, rfl⟩, fun s ops => broadcastSeqs_spec ops s,
    ?_, seq_mono_chat, seq_mono_alert, seq_mono_marker, seq_mono_team_update,
    seq_mono_auth, seq_mono_position, seq_mono_sweep⟩
  intro s ops h0
  have h := (broadcastSeqs_spec ops s).1
  rw [h0] at h
  exact h

/-- Witness for C1: three broadcasts from the fixture session (which has
sequence number 0) emit exactly the sequence numbers 1, 2, 3. -/
theorem C1_sequence_numbers_witness :
    (broadcastSeqs exSession
      [([], none, 1), ([], some "A", 2), ([], none, 3)]).2 = [1, 2, 3] := by
  have h := C1_sequence_numbers.2.2.1 exSession
    [([], none, 1), ([], some "A", 2), ([], none, 3)] rfl
  rw [h]
  rfl

/-- Claim C2: a team-scoped broadcast reaches exactly the members of that
team who exist in the player map, are `connected`, and hold a live
websocket; an all-scoped broadcast reaches exactly the players of the
session that are `connected` with a live websocket; in particular a
team-scoped delta never reaches a player outside the owning team. -/
theorem C2_broadcast_recipients (s : Session) (changes : List Change)
    (now : ℤ) :
    (∀ tid team, sfind s.teams tid = some team →
      ∀ pid, pid ∈ (broadcast_delta s changes (some tid) now).2.recipients ↔
        (pid ∈ team.players ∧ ∃ p, sfind s.players pid = some p ∧
          p.connection_status = ConnectionStatus.connected ∧
          p.websocket.isSome)) ∧
    (∀ pid, pid ∈ (broadcast_delta s changes none now).2.recipients ↔
        ∃ p, (pid, p) ∈ s.players ∧
          p.connection_status = ConnectionStatus.connected ∧
          p.websocket.isSome) ∧
    (∀ tid team pid, sfind s.teams tid = some team → pid ∉ team.players →
      pid ∉ (broadcast_delta s changes (some tid) now).2.recipients) := by
  have hcond : ∀ e : String × Player,
      (e.2.websocket.isSome &&
        decide (e.2.connection_status = ConnectionStatus.connected)) = true ↔
      (e.2.connection_status = ConnectionStatus.connected ∧
        e.2.websocket.isSome) := by
    intro e
    constructor
    · intro h
      simp only [Bool.and_eq_true, decide_eq_true_eq] at h
      exact ⟨h.2, h.1⟩
    · intro h
      simp [h.1, h.2]
  have h1 : ∀ tid team, sfind s.teams tid = some team →
      ∀ pid, pid ∈ (broadcast_delta s changes (some tid) now).2.recipients ↔
        (pid ∈ team.players ∧ ∃ p, sfind s.players pid = some p ∧
          p.connection_status = ConnectionStatus.connected ∧
          p.websocket.isSome) := by
    intro tid team hteam pid
    have hr : (broadcast_delta s changes (some tid) now).2.recipients =
        ((team.players.filterMap (fun pid =>
          (sfind s.players pid).map (fun p => (pid, p)))).filter (fun e =>
            e.2.websocket.isSome &&
            decide (e.2.connection_status = ConnectionStatus.connected))).map
          (fun e => e.1) := by
      unfold broadcast_delta
      dsimp only
      rw [show sfind s.teams tid = some team from hteam]
    rw [hr]
    constructor
    · intro hmem
      obtain ⟨e, he, heq⟩ := List.mem_map.mp hmem
      obtain ⟨he1, he2⟩ := List.mem_filter.mp he
      obtain ⟨a, ha, hfa⟩ := List.mem_filterMap.mp he1
      obtain ⟨p, hp, hpe⟩ := Option.map_eq_some'.mp hfa
      subst hpe
      subst heq
      exact ⟨ha, p, hp, (hcond _).mp he2⟩
    · rintro ⟨hmem, p, hp, hconn, hws⟩
      apply List.mem_map.mpr
      refine ⟨(pid, p), List.mem_filter.mpr
        ⟨List.mem_filterMap.mpr ⟨pid, hmem, ?_⟩, (hcond _).mpr ⟨hconn, hws⟩⟩,
        rfl⟩
      rw [hp]
      rfl
  refine ⟨h1, ?_, ?_⟩
  · intro pid
    have hr : (broadcast_delta s changes none now).2.recipients =
        (s.players.filter (fun e =>
          e.2.websocket.isSome &&
          decide (e.2.connection_status = ConnectionStatus.connected))).map
          (fun e => e.1) := rfl
    rw [hr]
    constructor
    · intro hmem
      obtain ⟨e, he, heq⟩ := List.mem_map.mp hmem
      obtain ⟨he1, he2⟩ := List.mem_filter.mp he
      subst heq
      exact ⟨e.2, he1, (hcond _).mp he2⟩
    · rintro ⟨p, hp, hconn, hws⟩
      exact List.mem_map.mpr ⟨(pid, p),
        List.mem_filter.mpr ⟨hp, (hcond _).mpr ⟨hconn, hws⟩⟩, rfl⟩
  · intro tid team pid hteam hnot hmem
    exact hnot (((h1 tid team hteam) pid).mp hmem).1

/-- Witness for C2: in the fixture session a broadcast scoped to team "A"
reaches the connected member p1 but not p3, who is on team "B". -/
theorem C2_broadcast_recipients_witness :
    "p1" ∈ (broadcast_delta exSession [] (some "A") 5).2.recipients ∧
    "p3" ∉ (broadcast_delta exSession [] (some "A") 5).2.recipients := by
  have h := C2_broadcast_recipients exSession [] 5
  constructor
  · exact (h.1 "A" exTeamA rfl "p1").mpr
      ⟨by decide, exPlayer "p1" "A" .connected (some 1), rfl, rfl, rfl⟩
  · exact h.2.2 "A" exTeamA "p3" rfl (by decide)

/-- Claim C6: a marker update or delete request whose requester is not the
marker's creator (or whose marker id is unknown) is silently ignored: the
entire session state, including the marker map, the team marker sets and
the sequence number, is unchanged, and no delta is broadcast and no error
is emitted. -/
theorem C6_marker_ownership (s : Session) (pid mid : String)
    (props : Option (SMap String)) (now : ℤ)
    (h : sfind s.markers mid = none ∨
      ∃ m, sfind s.markers mid = some m ∧ m.created_by ≠ pid) :
    handle_marker s pid (MarkerReq.update mid props) now = (s, []) ∧
    handle_marker s pid (MarkerReq.delete mid) now = (s, []) := by
  constructor <;>
  · unfold handle_marker
    cases hp : sfind s.players pid with
    | none => rfl
    | some player =>
        rcases h with hnone | ⟨m, hm, hne⟩
        · simp [hnone]
        · simp [hm, hne]

/-- Witness for C6: in a fixture session a non-creator's update and delete
of marker m1 leave the state untouched and broadcast nothing. -/
def exPosZero : Position :=
  { latitude := 0, longitude := 0, heading := 0, accuracy := 0,
    elevation := 0, updated_at := 0 }

def exMarker : Marker :=
  { marker_id := "m1", type := .pin, created_by := "p1",
    team_id := some "A", visibility := .team, position := exPosZero,
    properties := [("label", "x")], created_at := 0, expires_at := none }

def exSessionM : Session := { exSession with markers := [("m1", exMarker)] }

theorem C6_marker_ownership_witness :
    handle_marker exSessionM "p3"
        (MarkerReq.update "m1" (some [("label", "y")])) 7 = (exSessionM, []) ∧
    handle_marker exSessionM "p3" (MarkerReq.delete "m1") 7
        = (exSessionM, []) :=
  C6_marker_ownership exSessionM "p3" "m1" (some [("label", "y")]) 7
    (Or.inr ⟨exMarker, rfl, by decide⟩)

/-- Claim C10: a tactical alert always produces a `Message` with visibility
`team` (there is no visibility field read from the request), content equal
to the upper-cased alert type followed by the sender's callsign, location
falling back to the sender's stored position when the request carries none,
and it is broadcast scoped to the sender's team. -/
theorem C10_alert_always_team (s : Session) (pid : String) (p : Player)
    (alert_type : AlertType) (loc : Option Position) (msgId : String)
    (now : ℤ) (hp : sfind s.players pid = some p) :
    ∃ msg : Message,
      (handle_alert s pid alert_type loc msgId now).1.messages
          = s.messages ++ [msg] ∧
      msg.visibility = Visibility.team ∧
      msg.content = strUpper (AlertType.value alert_type) ++ " - " ++ p.callsign ∧
      msg.team_id = p.team_id ∧
      (loc = none → msg.location = p.position) ∧
      (∀ l, loc = some l → msg.location = some l) ∧
      (handle_alert s pid alert_type loc msgId now).2.map (fun e => e.scope)
          = [p.team_id] := by
  unfold handle_alert
  rw [hp]
  refine ⟨_, rfl, rfl, rfl, rfl, ?_, ?_, rfl⟩
  · rintro rfl
    rfl
  · rintro l rfl
    rfl

/-- Witness for C10: a `contact` alert from p1 with no attached location
appends a team-visibility message reading "CONTACT - cp1". -/
theorem C10_alert_always_team_witness :
    ∃ msg : Message,
      (handle_alert exSession "p1" AlertType.contact none "m2" 7).1.messages
          = exSession.messages ++ [msg] ∧
      msg.visibility = Visibility.team ∧
      msg.content = strUpper (AlertType.value AlertType.contact) ++ " - " ++
        (exPlayer "p1" "A" .connected (some 1)).callsign := by
  rcases C10_alert_always_team exSession "p1"
      (exPlayer "p1" "A" .connected (some 1)) AlertType.contact none "m2" 7
      rfl with ⟨msg, h1, h2, h3, _⟩
  exact ⟨msg, h1, h2, h3⟩

/-- Message fixture. -/
def exMsg : Message :=
  { message_id := "z", sender_id := "p1", team_id := some "A",
    visibility := .team, type := "chat", content := "c", sent_at := 0,
    location := none }

/-- Session fixture already holding exactly 100 messages. -/
def exSessionCap : Session :=
  { exSession with messages := List.replicate 100 exMsg }

/-- Claim C5 (code bug): `handle_chat` truncates the session's message list
to the 100 most recent entries, but `handle_alert` appends with no
truncation, so a single tactical alert on a session already holding 100
messages leaves 101 stored messages, violating the documented bound. -/
theorem C5_alert_exceeds_bound :
    (handle_chat exSessionCap "p1" "hi" none none "c101" 7).1.messages.length
        = 100 ∧
    (handle_alert exSessionCap "p1" AlertType.danger none "a101" 7).1.messages.length
        = 101 := by
  constructor <;> decide

/-- A cons cell always yields a minimal team key. -/
theorem minTeamKey_cons_isSome (e : String × Team) (l : SMap Team) :
    (minTeamKey (e :: l)).isSome := by
  obtain ⟨k, t⟩ := e
  simp only [minTeamKey]
  cases minTeamKey l with
  | none => rfl
  | some p =>
      obtain ⟨x, y⟩ := p
      dsimp only
      split <;> rfl

/-- `minTeamKey` returns the first key in dict iteration order attaining
the minimal member count: the map splits at that key, every earlier team is
strictly larger and every later team at least as large. -/
theorem minTeamKey_first_min {teams : SMap Team} :
    ∀ {tid : String} {c : Nat}, minTeamKey teams = some (tid, c) →
    ∃ t l1 l2, teams = l1 ++ (tid, t) :: l2 ∧ t.players.length = c ∧
      (∀ e ∈ l1, c < e.2.players.length) ∧
      (∀ e ∈ l2, c ≤ e.2.players.length) := by
  induction teams with
  | nil => intro tid c h; simp [minTeamKey] at h
  | cons hd rest ih =>
      intro tid c h
      obtain ⟨k, t0⟩ := hd
      cases hr : minTeamKey rest with
      | none =>
          have hrest : rest = [] := by
            cases rest with
            | nil => rfl
            | cons a b =>
                have := minTeamKey_cons_isSome a b
                rw [hr] at this
                cases this
          subst hrest
          simp only [minTeamKey] at h
          cases h
          exact ⟨t0, [], [], rfl, rfl, by simp, by simp⟩
      | some b =>
          obtain ⟨btid, bc⟩ := b
          simp only [minTeamKey, hr] at h
          by_cases hle : t0.players.length ≤ bc
          · rw [if_pos hle] at h
            cases h
            obtain ⟨t', l1', l2', hsplit, hlen, hl1, hl2⟩ := ih hr
            refine ⟨t0, [], rest, rfl, rfl, by simp, ?_⟩
            intro e he
            rw [hsplit] at he
            rcases List.mem_append.mp he with h1 | h2
            · exact le_of_lt (lt_of_le_of_lt hle (hl1 e h1))
            · rcases List.mem_cons.mp h2 with rfl | h3
              · show t0.players.length ≤ t'.players.length
                rw [hlen]
                exact hle
              · exact le_trans hle (hl2 e h3)
          · rw [if_neg hle] at h
            cases h
            obtain ⟨t', l1', l2', hsplit, hlen, hl1, hl2⟩ := ih hr
            refine ⟨t', (k, t0) :: l1', l2',
              by rw [hsplit, List.cons_append], hlen, ?_, hl2⟩
            intro e he
            rcases List.mem_cons.mp he with rfl | h3
            · exact Nat.lt_of_not_le hle
            · exact hl1 e h3

/-- Claim C8: on authentication the new player is assigned to the team
with the fewest current members, ties broken by team iteration order (the
first key in insertion order attaining the minimum), its id is added to
that team's member set, and in particular the first player of a fresh
session is assigned to the first-created team "Alpha". -/
theorem C8_team_balancing :
    (∀ (s : Session) (pid callsign : String) (dev : SMap String)
        (conn : Nat) (is_host : Bool) (now : ℤ) (tid : String) (c : Nat),
      minTeamKey s.teams = some (tid, c) →
      (∃ t l1 l2, s.teams = l1 ++ (tid, t) :: l2 ∧ t.players.length = c ∧
        (∀ e ∈ l1, c < e.2.players.length) ∧
        (∀ e ∈ l2, c ≤ e.2.players.length)) ∧
      (∃ p, sfind (handle_auth_join s pid callsign dev conn is_host now).1.players pid
          = some p ∧ p.team_id = some tid) ∧
      teamHas (handle_auth_join s pid callsign dev conn is_host now).1.teams
        tid pid) ∧
    (∀ (sid tidA tidB : String) (now : ℤ),
      minTeamKey (create_session sid tidA tidB now).teams = some (tidA, 0)) := by
  constructor
  · intro s pid callsign dev conn is_host now tid c hm
    refine ⟨minTeamKey_first_min hm, ?_, ?_⟩
    · unfold handle_auth_join
      rw [hm]
      dsimp only
      simp only [broadcast_player_update_fst]
      exact ⟨_, sfind_insert_self _ _ _, rfl⟩
    · unfold handle_auth_join
      rw [hm]
      dsimp only
      simp only [broadcast_player_update_fst]
      obtain ⟨t1, ht1⟩ := minTeamKey_sfind_isSome hm
      refine ⟨{ t1 with players := addElem t1.players pid }, ?_, ?_⟩
      · show sfind (smodify s.teams tid _) tid = _
        rw [sfind_modify_self, ht1]
        rfl
      · exact mem_addElem.mpr (Or.inr rfl)
  · intro sid tidA tidB now
    rfl

/-- Witness for C8: joining the fixture session (team "A" has 2 members,
"B" has 1) assigns the newcomer to team "B"; the first team key of a fresh
session is the "Alpha" team id. -/
theorem C8_team_balancing_witness :
    (∃ p, sfind (handle_auth_join exSession "p4" "x" [] 9 false 7).1.players "p4"
        = some p ∧ p.team_id = some "B") ∧
    minTeamKey (create_session "S2" "A1" "B1" 0).teams = some ("A1", 0) :=
  ⟨(C8_team_balancing.1 exSession "p4" "x" [] 9 false 7 "B" 1 rfl).2.1,
   C8_team_balancing.2 "S2" "A1" "B1" 0⟩

/-- The maintenance sweep only rewrites player statuses: the key list of
the player map is unchanged. -/
theorem sweep_players_keys (s : Session) (now : ℤ) :
    (sweep_session s now).1.players.map Prod.fst = s.players.map Prod.fst := by
  unfold sweep_session
  refine foldl_preserve
    (fun acc : Session × List Emitted =>
      acc.1.players.map Prod.fst = s.players.map Prod.fst) _ ?_ _ _ rfl
  intro acc e hacc
  unfold sweep_step
  cases hf : sfind acc.1.players e.1 with
  | none => exact hacc
  | some p =>
      dsimp only
      split
      · simp only [broadcast_player_update_fst]
        show (sinsert acc.1.players e.1 _).map Prod.fst = _
        rw [keys_sinsert_of_found hf]
        exact hacc
      · exact hacc

/-- Mapping values entry-wise preserves the key list. -/
theorem keys_map_pair {α β : Type} (g : String → α → β) (m : SMap α) :
    (m.map (fun e => (e.1, g e.1 e.2))).map Prod.fst = m.map Prod.fst := by
  rw [List.map_map]
  rfl

/-- The update-tick session map, unfolded. -/
theorem update_tick_sessions (st : ServerState) (now : ℤ) :
    (update_tick st now).1.sessions
      = (st.sessions.map (fun e => (e.1, (sweep_session e.2 now).1))).filter
          (fun e => !e.2.players.isEmpty) := by
  unfold update_tick
  dsimp only
  rw [List.map_map]
  rfl

/-- Claim C9: when an authenticated player's connection closes, exactly the
player's connection status and websocket handle change — the record stays
in the session's player map with every other field intact, every other
player is untouched, one player-status delta with scope "all" is emitted,
the session itself stays in the registry — and the maintenance tick removes
a session from the registry exactly when its player map is empty, never
while players remain (and the sweep never deletes player records). -/
theorem C9_disconnect_and_reaping (st : ServerState) (pid sid : String)
    (now : ℤ) (sess : Session) (p : Player)
    (hs : sfind st.sessions sid = some sess)
    (hp : sfind sess.players pid = some p)
    (hc : scontains st.player_connections pid = true) :
    (∃ sess' e,
      handle_disconnect st pid sid now
        = ({ sessions := sinsert st.sessions sid sess',
             player_connections := serase st.player_connections pid }, [e]) ∧
      sfind sess'.players pid = some { p with
        connection_status := ConnectionStatus.disconnected,
        websocket := none } ∧
      (∀ pid', pid' ≠ pid →
        sfind sess'.players pid' = sfind sess.players pid') ∧
      sess'.teams = sess.teams ∧ sess'.markers = sess.markers ∧
      sess'.messages = sess.messages ∧ sess'.host_id = sess.host_id ∧
      sess'.sequence_number = sess.sequence_number + 1 ∧
      e.scope = none ∧
      e.changes = [{
        change_type := "update",
        entity_type := "player",
        entity_id := p.player_id,
        data := ChangeData.playerStatus p.player_id p.callsign p.team_id
          ConnectionStatus.disconnected,
        path := none,
        timestamp := now }]) ∧
    (∀ now' : ℤ, (st.sessions.map Prod.fst).Nodup →
      (sess.players = [] →
        sfind (update_tick st now').1.sessions sid = none) ∧
      (sess.players ≠ [] →
        ∃ sw, sfind (update_tick st now').1.sessions sid = some sw ∧
          sw.players.map Prod.fst = sess.players.map Prod.fst)) := by
  constructor
  · unfold handle_disconnect
    rw [hs]
    dsimp only
    rw [hp]
    dsimp only
    rw [hc]
    simp only [if_true, broadcast_player_update_fst]
    refine ⟨_, _, rfl, sfind_insert_self _ _ _, ?_, rfl, rfl, rfl, rfl, rfl,
      rfl, rfl⟩
    intro pid' hne
    exact sfind_insert_ne _ _ hne
  · intro now' hnd
    have hfind0 : sfind
        (st.sessions.map (fun e => (e.1, (sweep_session e.2 now').1))) sid
        = some (sweep_session sess now').1 := by
      rw [sfind_map (fun _ v => (sweep_session v now').1) st.sessions sid, hs]
      rfl
    have hnd2 : ((st.sessions.map
        (fun e => (e.1, (sweep_session e.2 now').1))).map Prod.fst).Nodup := by
      rw [keys_map_pair (fun _ v => (sweep_session v now').1)]
      exact hnd
    have hfilter := sfind_filter
      (fun e : String × Session => !e.2.players.isEmpty) hnd2 sid
    rw [hfind0] at hfilter
    constructor
    · intro hempty
      have hsw : sweep_session sess now' = (sess, []) := by
        unfold sweep_session
        rw [hempty]
        rfl
      rw [update_tick_sessions, hfilter, hsw]
      simp [hempty]
    · intro hne
      have hkeys := sweep_players_keys sess now'
      have hswne : (sweep_session sess now').1.players ≠ [] := by
        intro hnil
        rw [hnil] at hkeys
        exact hne (by
          cases hcs : sess.players with
          | nil => rfl
          | cons a b => rw [hcs] at hkeys; cases hkeys)
      refine ⟨(sweep_session sess now').1, ?_, hkeys⟩
      rw [update_tick_sessions, hfilter]
      have : ((sweep_session sess now').1.players.isEmpty) = false := by
        cases hcs : (sweep_session sess now').1.players with
        | nil => exact absurd hcs hswne
        | cons a b => rfl
      simp [this]

def exServer : ServerState :=
  { sessions := [("S", exSession)],
    player_connections := [("p1", 1), ("p3", 3)] }

/-- Witness for C9: disconnecting p1 from the fixture server keeps the
session registered and keeps p1's record, now disconnected with no
websocket handle. -/
theorem C9_disconnect_and_reaping_witness :
    ∃ sess' e,
      handle_disconnect exServer "p1" "S" 9
        = ({ sessions := sinsert exServer.sessions "S" sess',
             player_connections := serase exServer.player_connections "p1" },
           [e]) ∧
      sfind sess'.players "p1" = some
        { exPlayer "p1" "A" .connected (some 1) with
          connection_status := ConnectionStatus.disconnected,
          websocket := none } := by
  obtain ⟨sess', e, h1, h2, _⟩ :=
    (C9_disconnect_and_reaping exServer "p1" "S" 9 exSession
      (exPlayer "p1" "A" .connected (some 1)) rfl rfl rfl).1
  exact ⟨sess', e, h1, h2⟩

/-- Discarding some other player from a team keeps `pid'` membership. -/
theorem teamHas_modify_discard {teams : SMap Team} {tid tid' pid pid' : String}
    (h : teamHas teams tid' pid') (hne : pid' ≠ pid) :
    teamHas
      (smodify teams tid
        (fun t => { t with players := discardElem t.players pid }))
      tid' pid' := by
  rcases h with ⟨t, ht, hp⟩
  by_cases he : tid' = tid
  · subst he
    refine ⟨{ t with players := discardElem t.players pid }, ?_, ?_⟩
    · rw [sfind_modify_self, ht]
      rfl
    · exact mem_discardElem.mpr ⟨hp, hne⟩
  · exact ⟨t, by rw [sfind_modify_ne _ _ he]; exact ht, hp⟩

/-- Core of the team-reassignment preservation argument: moving `pid` onto
an existing destination team of an intermediate team map from which `pid`
is absent everywhere, while every other player's membership facts carry
over, restores the bidirectional invariant. -/
theorem InvPT_move {players : SMap Player} {teams1 : SMap Team}
    {pid new_tid : String} {player' : Player}
    (hpt : player'.team_id = some new_tid)
    (hnew1 : (sfind teams1 new_tid).isSome)
    (hcl1 : ∀ pid' q, sfind players pid' = some q → pid' ≠ pid →
        ∀ tid', q.team_id = some tid' → teamHas teams1 tid' pid')
    (hcl2 : ∀ tid t, sfind teams1 tid = some t → ∀ pid'' ∈ t.players,
        pid'' ≠ pid ∧ assignedTo players pid'' tid) :
    InvPT (sinsert players pid player')
          (smodify teams1 new_tid
            (fun t => { t with players := addElem t.players pid })) := by
  constructor
  · intro pid' q hq
    by_cases h : pid' = pid
    · subst h
      rw [sfind_insert_self] at hq
      cases hq
      intro tid' htid'
      rw [hpt] at htid'
      cases htid'
      obtain ⟨t1, ht1⟩ := Option.isSome_iff_exists.mp hnew1
      refine ⟨{ t1 with players := addElem t1.players pid' }, ?_, ?_⟩
      · rw [sfind_modify_self, ht1]
        rfl
      · exact mem_addElem.mpr (Or.inr rfl)
    · rw [sfind_insert_ne _ _ h] at hq
      intro tid' htid'
      exact teamHas_modify_add (hcl1 pid' q hq h tid' htid')
  · intro tid t ht pid'' hmem
    by_cases he : tid = new_tid
    · subst he
      rw [sfind_modify_self] at ht
      obtain ⟨t1, ht1, hteq⟩ := Option.map_eq_some'.mp ht
      subst hteq
      rcases mem_addElem.mp hmem with hin | rfl
      · obtain ⟨hne, q, hq, hqt⟩ := hcl2 tid t1 ht1 pid'' hin
        exact ⟨q, by rw [sfind_insert_ne _ _ hne]; exact hq, hqt⟩
      · exact ⟨player', sfind_insert_self _ _ _, hpt⟩
    · rw [sfind_modify_ne _ _ he] at ht
      obtain ⟨hne, q, hq, hqt⟩ := hcl2 tid t ht pid'' hmem
      exact ⟨q, by rw [sfind_insert_ne _ _ hne]; exact hq, hqt⟩

/-- Authentication preserves the bidirectional membership invariant (the
generated player id is fresh by uuid4). -/
theorem Inv_auth {s : Session} (hInv : Inv s) (pid callsign : String)
    (dev : SMap String) (conn : Nat) (is_host : Bool) (now : ℤ)
    (hfresh : sfind s.players pid = none) :
    Inv (handle_auth_join s pid callsign dev conn is_host now).1 := by
  unfold handle_auth_join
  cases hm : minTeamKey s.teams with
  | none =>
      dsimp only
      simp only [broadcast_player_update_fst]
      constructor
      · intro pid' q hq
        by_cases h : pid' = pid
        · subst h
          rw [sfind_insert_self] at hq
          cases hq
          intro tid htid
          cases htid
        · rw [sfind_insert_ne _ _ h] at hq
          exact hInv.1 pid' q hq
      · intro tid t ht pid'' hmem
        rcases hInv.2 tid t ht pid'' hmem with ⟨q, hq, hqt⟩
        have hne : pid'' ≠ pid := by
          intro he
          subst he
          rw [hfresh] at hq
          cases hq
        exact ⟨q, by rw [sfind_insert_ne _ _ hne]; exact hq, hqt⟩
  | some b =>
      obtain ⟨tid, c⟩ := b
      dsimp only
      simp only [broadcast_player_update_fst]
      refine InvPT_move rfl ?_ ?_ ?_
      · obtain ⟨t1, ht1⟩ := minTeamKey_sfind_isSome hm
        rw [ht1]
        rfl
      · intro pid' q hq _ tid' htid'
        exact hInv.1 pid' q hq tid' htid'
      · intro tid' t' ht' pid'' hmem
        rcases hInv.2 tid' t' ht' pid'' hmem with ⟨q, hq, hqt⟩
        have hne : pid'' ≠ pid := by
          intro he
          subst he
          rw [hfresh] at hq
          cases hq
        exact ⟨hne, q, hq, hqt⟩

/-- Host-initiated team reassignment preserves the bidirectional
membership invariant. -/
theorem Inv_team_update {s : Session} (hInv : Inv s) (pid new_tid : String)
    (now : ℤ) : Inv (handle_team_update s pid new_tid now).1 := by
  unfold handle_team_update
  cases hp : sfind s.players pid with
  | none => exact hInv
  | some player =>
      dsimp only
      cases hnew : sfind s.teams new_tid with
      | none =>
          simp only [hnew, Option.isSome_none, Bool.false_eq_true, if_false]
          exact hInv
      | some tnew =>
          simp only [hnew, Option.isSome_some, if_true]
          cases hold : player.team_id with
          | none =>
              dsimp only
              simp only [broadcast_delta_fst]
              refine InvPT_move rfl (by rw [hnew]; rfl) ?_ ?_
              · intro pid' q hq _ tid' htid'
                exact hInv.1 pid' q hq tid' htid'
              · intro tid' t' ht' pid'' hmem
                rcases hInv.2 tid' t' ht' pid'' hmem with ⟨q, hq, hqt⟩
                refine ⟨?_, q, hq, hqt⟩
                intro he
                subst he
                rw [hp] at hq
                cases hq
                rw [hold] at hqt
                cases hqt
          | some old_tid =>
              dsimp only
              cases holdt : sfind s.teams old_tid with
              | none => exact hInv
              | some told =>
                  dsimp only
                  simp only [broadcast_delta_fst]
                  refine InvPT_move rfl ?_ ?_ ?_
                  · by_cases he : new_tid = old_tid
                    · subst he
                      rw [sfind_modify_self, holdt]
                      rfl
                    · rw [sfind_modify_ne _ _ he, hnew]
                      rfl
                  · intro pid' q hq hne tid' htid'
                    exact teamHas_modify_discard
                      (hInv.1 pid' q hq tid' htid') hne
                  · intro tid' t' ht' pid'' hmem
                    by_cases he : tid' = old_tid
                    · subst he
                      rw [sfind_modify_self, holdt] at ht'
                      cases ht'
                      obtain ⟨hin, hne⟩ := mem_discardElem.mp hmem
                      rcases hInv.2 tid' told holdt pid'' hin with ⟨q, hq, hqt⟩
                      exact ⟨hne, q, hq, hqt⟩
                    · rw [sfind_modify_ne _ _ he] at ht'
                      rcases hInv.2 tid' t' ht' pid'' hmem with ⟨q, hq, hqt⟩
                      refine ⟨?_, q, hq, hqt⟩
                      intro heq
                      subst heq
                      rw [hp] at hq
                      cases hq
                      rw [hold] at hqt
                      cases hqt
                      exact he rfl

/-- The inactivity sweep preserves the bidirectional membership invariant
of a session. -/
theorem Inv_sweep {s : Session} (hInv : Inv s) (now : ℤ) :
    Inv (sweep_session s now).1 := by
  unfold sweep_session
  refine foldl_preserve (fun acc : Session × List Emitted => Inv acc.1)
    _ ?_ _ _ hInv
  intro acc e hacc
  unfold sweep_step
  cases hf : sfind acc.1.players e.1 with
  | none => exact hacc
  | some p =>
      dsimp only
      split
      · simp only [broadcast_player_update_fst]
        exact InvPT_insert_same_team hacc hf rfl
      · exact hacc

/-- Disconnect handling preserves the invariant of every session in the
registry. -/
theorem Inv_disconnect {st : ServerState} (pid sid : String) (now : ℤ)
    (hall : ∀ sid' s', sfind st.sessions sid' = some s' → Inv s') :
    ∀ sid' s'',
      sfind (handle_disconnect st pid sid now).1.sessions sid' = some s'' →
      Inv s'' := by
  intro sid' s'' h
  unfold handle_disconnect at h
  cases hs : sfind st.sessions sid with
  | none =>
      rw [hs] at h
      exact hall sid' s'' h
  | some sess =>
      rw [hs] at h
      dsimp only at h
      cases hp : sfind sess.players pid with
      | none =>
          rw [hp] at h
          exact hall sid' s'' h
      | some p =>
          rw [hp] at h
          dsimp only at h
          by_cases hc : scontains st.player_connections pid = true
          · rw [if_pos hc] at h
            simp only [broadcast_player_update_fst] at h
            by_cases he : sid' = sid
            · subst he
              rw [sfind_insert_self] at h
              cases h
              exact InvPT_insert_same_team (hall sid' sess hs) hp rfl
            · rw [sfind_insert_ne _ _ he] at h
              exact hall sid' s'' h
          · rw [if_neg hc] at h
            by_cases he : sid' = sid
            · subst he
              rw [sfind_insert_self] at h
              cases h
              exact InvPT_insert_same_team (hall sid' sess hs) hp rfl
            · rw [sfind_insert_ne _ _ he] at h
              exact hall sid' s'' h

/-- One maintenance tick preserves the invariant of every session still in
the registry. -/
theorem Inv_tick {st : ServerState} (now : ℤ)
    (hnd : (st.sessions.map Prod.fst).Nodup)
    (hall : ∀ sid' s', sfind st.sessions sid' = some s' → Inv s') :
    ∀ sid' s'',
      sfind (update_tick st now).1.sessions sid' = some s'' → Inv s'' := by
  intro sid' s'' h
  rw [update_tick_sessions] at h
  have hnd2 : ((st.sessions.map
      (fun e => (e.1, (sweep_session e.2 now).1))).map Prod.fst).Nodup := by
    rw [keys_map_pair (fun _ v => (sweep_session v now).1)]
    exact hnd
  rw [sfind_filter (fun e : String × Session => !e.2.players.isEmpty) hnd2 sid',
    sfind_map (fun _ v => (sweep_session v now).1) st.sessions sid'] at h
  cases hs : sfind st.sessions sid' with
  | none =>
      rw [hs] at h
      cases h
  | some sess =>
      rw [hs] at h
      dsimp only [Option.map, Option.bind] at h
      split at h
      · cases h
        exact Inv_sweep (hall sid' sess hs) now
      · cases h

/-- A completed reassignment removed the player from the old team and added
it to the new one, in the same step. -/
theorem team_transfer_atomic {s : Session} {pid new_tid old_tid : String}
    {p : Player} {tnew told : Team} (now : ℤ)
    (hp : sfind s.players pid = some p) (hold : p.team_id = some old_tid)
    (hne : old_tid ≠ new_tid)
    (hnew : sfind s.teams new_tid = some tnew)
    (holdt : sfind s.teams old_tid = some told) :
    teamHas (handle_team_update s pid new_tid now).1.teams new_tid pid ∧
    ¬ teamHas (handle_team_update s pid new_tid now).1.teams old_tid pid := by
  unfold handle_team_update
  rw [hp]
  dsimp only
  simp only [hnew, Option.isSome_some, if_true]
  rw [hold]
  dsimp only
  rw [holdt]
  dsimp only
  simp only [broadcast_delta_fst]
  have hfin_new : sfind
      (smodify
        (smodify s.teams old_tid
          (fun t => { t with players := discardElem t.players pid }))
        new_tid (fun t => { t with players := addElem t.players pid }))
      new_tid
      = some { tnew with players := addElem tnew.players pid } := by
    rw [sfind_modify_self, sfind_modify_ne _ _ (Ne.symm hne), hnew]
    rfl
  have hfin_old : sfind
      (smodify
        (smodify s.teams old_tid
          (fun t => { t with players := discardElem t.players pid }))
        new_tid (fun t => { t with players := addElem t.players pid }))
      old_tid
      = some { told with players := discardElem told.players pid } := by
    rw [sfind_modify_ne _ _ hne, sfind_modify_self, holdt]
    rfl
  constructor
  · exact ⟨_, hfin_new, mem_addElem.mpr (Or.inr rfl)⟩
  · rintro ⟨t, ht, hmem⟩
    rw [hfin_old] at ht
    cases ht
    exact (mem_discardElem.mp hmem).2 rfl

/-- Claim C7: authentication, host team reassignment, disconnect handling
and the maintenance sweep all preserve the bidirectional membership
invariant — a player with a non-null team reference points at an existing
team of its session whose member set holds the player's id, every team
member is an existing player assigned to that team (hence no player sits in
two member sets) — and a completed transfer removes the player from the
old team and adds it to the new one in the same logical step. -/
theorem C7_membership_invariant :
    (∀ (s : Session) (pid callsign : String) (dev : SMap String)
        (conn : Nat) (is_host : Bool) (now : ℤ),
      Inv s → sfind s.players pid = none →
      Inv (handle_auth_join s pid callsign dev conn is_host now).1) ∧
    (∀ (s : Session) (pid new_tid : String) (now : ℤ),
      Inv s → Inv (handle_team_update s pid new_tid now).1) ∧
    (∀ (st : ServerState) (pid sid : String) (now : ℤ),
      (∀ sid' s', sfind st.sessions sid' = some s' → Inv s') →
      ∀ sid' s'',
        sfind (handle_disconnect st pid sid now).1.sessions sid' = some s'' →
        Inv s'') ∧
    (∀ (s : Session) (now : ℤ), Inv s → Inv (sweep_session s now).1) ∧
    (∀ (st : ServerState) (now : ℤ), (st.sessions.map Prod.fst).Nodup →
      (∀ sid' s', sfind st.sessions sid' = some s' → Inv s') →
      ∀ sid' s'',
        sfind (update_tick st now).1.sessions sid' = some s'' → Inv s'') ∧
    (∀ (s : Session) (pid new_tid old_tid : String) (p : Player)
        (tnew told : Team) (now : ℤ),
      sfind s.players pid = some p → p.team_id = some old_tid →
      old_tid ≠ new_tid → sfind s.teams new_tid = some tnew →
      sfind s.teams old_tid = some told →
      teamHas (handle_team_update s pid new_tid now).1.teams new_tid pid ∧
      ¬ teamHas (handle_team_update s pid new_tid now).1.teams old_tid pid) :=
  ⟨fun _ pid callsign dev conn is_host now hInv hfresh =>
      Inv_auth hInv pid callsign dev conn is_host now hfresh,
   fun _ pid new_tid now hInv => Inv_team_update hInv pid new_tid now,
   fun _ pid sid now hall => Inv_disconnect pid sid now hall,
   fun _ now hInv => Inv_sweep hInv now,
   fun _ now hnd hall => Inv_tick now hnd hall,
   fun _ _ _ _ _ _ _ now hp hold hne hnew holdt =>
      team_transfer_atomic now hp hold hne hnew holdt⟩

/-- Witness for C7: the fixture session satisfies the invariant, and it is
preserved by a host reassignment of p3 to team "A", by a fresh join, and by
a maintenance sweep. -/
theorem C7_membership_invariant_witness :
    Inv (handle_team_update exSession "p3" "A" 7).1 ∧
    Inv (handle_auth_join exSession "p4" "x" [] 9 false 7).1 ∧
    Inv (sweep_session exSession 400).1 :=
  ⟨C7_membership_invariant.2.1 exSession "p3" "A" 7
      (InvPT_of_entries (by decide) (by decide)),
   C7_membership_invariant.1 exSession "p4" "x" [] 9 false 7
      (InvPT_of_entries (by decide) (by decide)) rfl,
   C7_membership_invariant.2.2.2.1 exSession 400
      (InvPT_of_entries (by decide) (by decide))⟩

theorem get_filtered_state_teams (s : Session) (viewer : Option String) :
    (get_filtered_state s viewer).teams = s.teams.map (fun e =>
      (e.1, ({ team_id := e.2.team_id, name := e.2.name, color := e.2.color,
               players := e.2.players } : TeamPublic))) := rfl

theorem get_filtered_state_players (s : Session) (viewer : Option String) :
    (get_filtered_state s viewer).players
      = s.players.map (fun e => (e.1, publicPlayer viewer e.2)) := rfl

theorem get_filtered_state_markers (s : Session) (viewer : Option String) :
    (get_filtered_state s viewer).markers = s.markers.filter (fun e =>
      decide (e.2.visibility = Visibility.all ∨ e.2.team_id = viewer)) := rfl

theorem get_filtered_state_messages (s : Session) (viewer : Option String) :
    (get_filtered_state s viewer).messages
      = (s.messages.drop (s.messages.length - 50)).filter (fun m =>
          decide (m.visibility = Visibility.all ∨ m.team_id = viewer)) := rfl

def exMsgA : Message :=
  { message_id := "va", sender_id := "p1", team_id := some "A",
    visibility := .team, type := "chat", content := "a", sent_at := 0,
    location := none }

def exMsgB : Message :=
  { message_id := "vb", sender_id := "p3", team_id := some "B",
    visibility := .team, type := "chat", content := "b", sent_at := 0,
    location := none }

/-- Session fixture: one team-"A" message followed by 50 team-"B"
messages. -/
def exSessionV : Session :=
  { exSession with messages := exMsgA :: List.replicate 50 exMsgB }

/-- Counterexample for C4: with one visible message followed by 50
invisible ones, the snapshot for a team-"A" viewer contains no message at
all, yet the most recent 50 ChatEvents visible to team "A" are nonempty
(they contain the team-"A" message) — the code filters the last 50
messages by visibility instead of returning the last 50 visible
messages. -/
theorem C4_snapshot_counterexample :
    (get_filtered_state exSessionV (some "A")).messages.length = 0 ∧
    (specMostRecentVisibleMessages exSessionV (some "A")).length = 1 := by
  constructor <;> decide

/-- Claim C4 (amended): the snapshot contains every team with its public
fields, every player with public fields whose position is included exactly
when the player's team equals the viewer's team and a position is stored,
exactly the markers that are visible to the viewer (visibility `all` or
owning team = viewer's team), and exactly the visible messages among the
session's 50 most recent ChatEvents. -/
theorem C4_snapshot_filtering (s : Session) (viewer : Option String) :
    (∀ tid, sfind (get_filtered_state s viewer).teams tid
        = (sfind s.teams tid).map (fun t =>
            { team_id := t.team_id, name := t.name, color := t.color,
              players := t.players })) ∧
    (∀ pid, sfind (get_filtered_state s viewer).players pid
        = (sfind s.players pid).map (publicPlayer viewer)) ∧
    (∀ pid p, sfind s.players pid = some p →
      ((publicPlayer viewer p).position = p.position ∧
          (p.team_id = viewer ∧ p.position.isSome)) ∨
      ((publicPlayer viewer p).position = none ∧
          ¬(p.team_id = viewer ∧ p.position.isSome))) ∧
    ((s.markers.map Prod.fst).Nodup → ∀ mid m,
      sfind (get_filtered_state s viewer).markers mid = some m ↔
        (sfind s.markers mid = some m ∧
          (m.visibility = Visibility.all ∨ m.team_id = viewer))) ∧
    (∀ m, m ∈ (get_filtered_state s viewer).messages ↔
      (m ∈ s.messages.drop (s.messages.length - 50) ∧
        (m.visibility = Visibility.all ∨ m.team_id = viewer))) := by
  refine ⟨?_, ?_, ?_, ?_, ?_⟩
  · intro tid
    rw [get_filtered_state_teams]
    exact sfind_map (fun _ t =>
      ({ team_id := t.team_id, name := t.name, color := t.color,
         players := t.players } : TeamPublic)) s.teams tid
  · intro pid
    rw [get_filtered_state_players]
    exact sfind_map (fun _ p => publicPlayer viewer p) s.players pid
  · intro pid p _
    unfold publicPlayer
    by_cases h : p.team_id = viewer ∧ p.position.isSome
    · exact Or.inl ⟨by rw [if_pos h], h⟩
    · exact Or.inr ⟨by rw [if_neg h], h⟩
  · intro hnd mid m
    rw [get_filtered_state_markers,
      sfind_filter (fun e =>
        decide (e.2.visibility = Visibility.all ∨ e.2.team_id = viewer))
        hnd mid]
    cases hf : sfind s.markers mid with
    | none =>
        constructor
        · intro h
          cases h
        · rintro ⟨h, _⟩
          cases h
    | some m0 =>
        dsimp only [Option.bind]
        constructor
        · intro h
          by_cases hp : (m0.visibility = Visibility.all ∨ m0.team_id = viewer)
          · rw [if_pos (by simpa using hp)] at h
            cases h
            exact ⟨rfl, hp⟩
          · rw [if_neg (by simpa using hp)] at h
            cases h
        · rintro ⟨hm, hvis⟩
          cases hm
          rw [if_pos (by simpa using hvis)]
  · intro m
    rw [get_filtered_state_messages]
    constructor
    · intro h
      obtain ⟨h1, h2⟩ := List.mem_filter.mp h
      exact ⟨h1, by simpa using h2⟩
    · rintro ⟨h1, h2⟩
      exact List.mem_filter.mpr ⟨h1, by simpa using h2⟩

/-- Witness for C4: in the fixture with a team-"A" marker, the snapshot
for an "A" viewer contains marker m1, the snapshot for a "B" viewer
omits it, and players are rendered through the public projection. -/
theorem C4_snapshot_filtering_witness :
    sfind (get_filtered_state exSessionM (some "A")).markers "m1"
        = some exMarker ∧
    sfind (get_filtered_state exSessionM (some "B")).markers "m1" = none ∧
    sfind (get_filtered_state exSessionM (some "A")).players "p3"
        = some (publicPlayer (some "A") (exPlayer "p3" "B" .connected (some 3))) := by
  have hA := C4_snapshot_filtering exSessionM (some "A")
  have hB := C4_snapshot_filtering exSessionM (some "B")
  refine ⟨(hA.2.2.2.1 (by decide) "m1" exMarker).mpr ⟨rfl, by decide⟩, ?_, ?_⟩
  · cases h : sfind (get_filtered_state exSessionM (some "B")).markers "m1" with
    | none => rfl
    | some m =>
        obtain ⟨hfind, hvis⟩ := (hB.2.2.2.1 (by decide) "m1" m).mp h
        have hm : m = exMarker := by
          have : (some exMarker : Option Marker) = some m := by
            rw [← hfind]
            rfl
          cases this
          rfl
        subst hm
        rcases hvis with hv | hv
        · exact absurd hv (by decide)
        · exact absurd hv (by decide)
  · rw [hA.2.1 "p3"]
    rfl

/-! ### Position threshold (claim C3) -/

/-- The longitude (in degrees) of the point on the equator whose
great-circle distance from the origin is exactly 2 meters under the
source's Haversine formula. -/
noncomputable def lonEq : ℝ := 360 / (6371000 * Real.pi)

/-- Under the source's Haversine formula, the distance from (0, 0) to
(0, `lonEq`) is exactly 2 meters, whatever the inert fields hold. -/
theorem distance_eq_two (h1 a1 e1 h2 a2 e2 : ℝ) (u1 u2 : ℤ) :
    Position.distance_to
      { latitude := 0, longitude := 0, heading := h1, accuracy := a1,
        elevation := e1, updated_at := u1 }
      { latitude := 0, longitude := lonEq, heading := h2, accuracy := a2,
        elevation := e2, updated_at := u2 } = 2 := by
  have hpi3 := Real.pi_gt_three
  have hpi0 := Real.pi_pos
  obtain ⟨t, ht⟩ : ∃ x : ℝ, x = 1 / 6371000 := ⟨_, rfl⟩
  have ht0 : (0:ℝ) < t := by rw [ht]; norm_num
  have htlt : t < Real.pi / 2 := by rw [ht]; nlinarith
  have htle : t ≤ Real.pi := by linarith
  have hsin : 0 ≤ Real.sin t := Real.sin_nonneg_of_nonneg_of_le_pi ht0.le htle
  have hcos : 0 < Real.cos t :=
    Real.cos_pos_of_mem_Ioo ⟨by linarith, htlt⟩
  have hlon : lonEq * Real.pi / 180 = 2 * t := by
    rw [ht]
    unfold lonEq
    field_simp
    ring
  unfold Position.distance_to
  dsimp only
  unfold radians
  rw [hlon]
  rw [show ((0:ℝ) * Real.pi / 180 - 0 * Real.pi / 180) / 2 = 0 from by ring]
  rw [show ((2:ℝ) * t - 0 * Real.pi / 180) / 2 = t from by ring]
  rw [show (0:ℝ) * Real.pi / 180 = 0 from by ring]
  rw [Real.sin_zero, Real.cos_zero]
  rw [show (0:ℝ) ^ 2 + 1 * 1 * Real.sin t ^ 2 = Real.sin t ^ 2 from by ring]
  rw [Real.sqrt_sq hsin]
  rw [show (1:ℝ) - Real.sin t ^ 2 = Real.cos t ^ 2 from (Real.cos_sq' t).symm]
  rw [Real.sqrt_sq hcos.le]
  unfold atan2
  rw [if_pos hcos]
  rw [← Real.tan_eq_sin_div_cos, Real.arctan_tan (by linarith) htlt]
  rw [ht]
  norm_num

/-- Player fixture that already has a stored position at the origin. -/
def exPlayerP : Player :=
  { exPlayer "p1" "A" .connected (some 1) with position := some exPosZero }

/-- Session fixture with that player. -/
def exSessionP : Session := { exSession with players := [("p1", exPlayerP)] }

/-- Counterexample for C3: an update at a great-circle distance of exactly
2 meters from the stored position produces no broadcast and leaves the
whole session state, including the stored position, unchanged — the code
broadcasts only when the distance strictly exceeds the threshold, so the
claim's "exactly … 2 meters … produces exactly one broadcast" fails. -/
theorem C3_position_threshold_counterexample :
    Position.distance_to exPosZero (mkPos 0 lonEq 0 0 0 7) = 2 ∧
    handle_position_update exSessionP "p1" 0 lonEq 0 0 0 7
      = (exSessionP, []) := by
  have hdist : Position.distance_to exPosZero (mkPos 0 lonEq 0 0 0 7) = 2 :=
    distance_eq_two 0 0 0 0 0 0 0 7
  refine ⟨hdist, ?_⟩
  have hngt : ¬ (Position.distance_to exPosZero (mkPos 0 lonEq 0 0 0 7)
      > POSITION_UPDATE_THRESHOLD) := by
    rw [hdist]
    unfold POSITION_UPDATE_THRESHOLD
    norm_num
  unfold handle_position_update
  rw [show sfind exSessionP.players "p1" = some exPlayerP from rfl]
  dsimp only
  rw [show exPlayerP.position = some exPosZero from rfl]
  dsimp only
  rw [if_neg hngt]

/-- Claim C3 (amended): a position update replaces the stored position,
refreshes `last_active` and produces exactly one team-scoped broadcast if
and only if the player has no stored position or the Haversine distance
from the stored position strictly exceeds 2 meters; an update at distance
less than or **equal to** 2 meters (the boundary included) is dropped: no
broadcast and the entire session state unchanged. -/
theorem C3_position_threshold (s : Session) (pid : String) (p : Player)
    (lat lon hd acc el : ℝ) (now : ℤ)
    (hp : sfind s.players pid = some p) :
    (p.position = none →
      ∃ e, (handle_position_update s pid lat lon hd acc el now).2 = [e] ∧
        e.scope = p.team_id ∧
        sfind (handle_position_update s pid lat lon hd acc el now).1.players pid
          = some { p with position := some (mkPos lat lon hd acc el now),
                          last_active := now } ∧
        (handle_position_update s pid lat lon hd acc el now).1.sequence_number
          = s.sequence_number + 1) ∧
    (∀ old, p.position = some old →
      Position.distance_to old (mkPos lat lon hd acc el now)
        > POSITION_UPDATE_THRESHOLD →
      ∃ e, (handle_position_update s pid lat lon hd acc el now).2 = [e] ∧
        e.scope = p.team_id ∧
        sfind (handle_position_update s pid lat lon hd acc el now).1.players pid
          = some { p with position := some (mkPos lat lon hd acc el now),
                          last_active := now } ∧
        (handle_position_update s pid lat lon hd acc el now).1.sequence_number
          = s.sequence_number + 1) ∧
    (∀ old, p.position = some old →
      ¬(Position.distance_to old (mkPos lat lon hd acc el now)
        > POSITION_UPDATE_THRESHOLD) →
      handle_position_update s pid lat lon hd acc el now = (s, [])) := by
  refine ⟨?_, ?_, ?_⟩
  · intro h0
    unfold handle_position_update
    rw [hp]
    dsimp only
    rw [h0]
    dsimp only
    exact ⟨_, rfl, rfl, sfind_insert_self _ _ _, rfl⟩
  · intro old hold hgt
    unfold handle_position_update
    rw [hp]
    dsimp only
    rw [hold]
    dsimp only
    rw [if_pos hgt]
    exact ⟨_, rfl, rfl, sfind_insert_self _ _ _, rfl⟩
  · intro old hold hle
    unfold handle_position_update
    rw [hp]
    dsimp only
    rw [hold]
    dsimp only
    rw [if_neg hle]

/-- Witness for C3: a first position update (no stored position) from p1
broadcasts exactly once with scope team "A" and bumps the sequence number
to 1. -/
theorem C3_position_threshold_witness :
    ∃ e, (handle_position_update exSession "p1" 1 2 3 4 5 7).2 = [e] ∧
      e.scope = some "A" ∧
      (handle_position_update exSession "p1" 1 2 3 4 5 7).1.sequence_number
        = 1 := by
  obtain ⟨e, h1, h2, _, h4⟩ :=
    (C3_position_threshold exSession "p1"
      (exPlayer "p1" "A" .connected (some 1)) 1 2 3 4 5 7 rfl).1 rfl
  exact ⟨e, h1, h2, h4⟩

end ARSFT
